import Mathlib

namespace MCServer

/-- Whitespace characters trimmed by JavaScript's `String.prototype.trim`
(restricted to the ASCII whitespace that can occur in request bodies). -/
def isWs (c : Char) : Bool :=
  c = ' ' || c = '\t' || c = '\n' || c = '\r'

/-- `worldName.trim()` from the route handlers. -/
def jsTrim (s : String) : String :=
  ⟨((s.data.dropWhile isWs).reverse.dropWhile isWs).reverse⟩

/-- A directory entry as seen by `fs.readdir(dir, { withFileTypes: true })`,
together with the `mtimeMs` obtained from `fs.stat`.  The list order of a
`List DirEntry` is the directory listing order. -/
structure DirEntry where
  name : String
  mtime : Nat
  isFile : Bool
deriving DecidableEq

/-- Lower-cased character list of a name (`name.toLowerCase()`). -/
def lowerList (s : String) : List Char :=
  s.data.map Char.toLower

/-- `e.name.toLowerCase().endsWith('.jar')`. -/
def isJarName (s : String) : Bool :=
  ['.', 'j', 'a', 'r'].isSuffixOf (lowerList s)

/-- `/^server.*\.jar$/i.test(n)` on a name already known to end in `.jar`:
case-insensitively, the name starts with `server`. -/
def isServerJarName (s : String) : Bool :=
  ['s', 'e', 'r', 'v', 'e', 'r'].isPrefixOf (lowerList s) && isJarName s

/-! ## Artifact Resolver (`findExistingJar` in `gui/src/app/api/server/start/route.ts`,
and the shell auto-detect pipeline of the run script) -/

/-- The candidate filter of `findExistingJar`:
`entries.filter(e => e.isFile() && e.name.toLowerCase().endsWith('.jar'))`. -/
def jarCandidates (entries : List DirEntry) : List DirEntry :=
  entries.filter (fun e => e.isFile && isJarName e.name)

/-- `const preferred = jars.filter(n => /^server.*\.jar$/i.test(n));
const list = preferred.length ? preferred : jars;` -/
def preferredOrAll (l : List DirEntry) : List DirEntry :=
  let p := l.filter (fun e => isServerJarName e.name)
  if p.isEmpty then l else p

/-- Insertion step of a stable sort by `mtime` descending, matching the stable
`Array.prototype.sort` with comparator `(a, b) => b.t - a.t`: an element is
placed before the first element whose `mtime` is not greater than its own. -/
def insertByMtime (e : DirEntry) : List DirEntry → List DirEntry
  | [] => [e]
  | b :: bs => if e.mtime ≥ b.mtime then e :: b :: bs else b :: insertByMtime e bs

/-- Stable sort by `mtime` descending (`stats.sort((a, b) => b.t - a.t)`). -/
def sortByMtimeDesc : List DirEntry → List DirEntry
  | [] => []
  | e :: es => insertByMtime e (sortByMtimeDesc es)

/-- `findExistingJar(dir)`: filter to regular `.jar` files (case-insensitive),
prefer `server*.jar` names, sort by modification time newest first, and return
the first entry's name (`stats[0].n`); `null` when no candidate exists. -/
def findExistingJar (entries : List DirEntry) : Option String :=
  let jars := jarCandidates entries
  if jars.isEmpty then none
  else (sortByMtimeDesc (preferredOrAll jars)).head?.map (fun e => e.name)

/-- The first entry of maximal `mtime` in listing order (an independent
description of what the stable descending sort's head is). -/
def firstNewest : List DirEntry → Option DirEntry
  | [] => none
  | e :: es =>
    match firstNewest es with
    | none => some e
    | some b => if b.mtime > e.mtime then some b else some e

/-- `(\.old|\.bak)\.jar$` — the exclusion applied by the shell auto-detect
(`grep -vE`), case-sensitive. -/
def isOldBakJar (s : String) : Bool :=
  ['.', 'o', 'l', 'd', '.', 'j', 'a', 'r'].isSuffixOf s.data ||
  ['.', 'b', 'a', 'k', '.', 'j', 'a', 'r'].isSuffixOf s.data

/-- Strict order used by `ls -t`: newest modification time first, ties broken
by name in ascending order. -/
def lsTBefore (a b : DirEntry) : Bool :=
  a.mtime > b.mtime || (a.mtime = b.mtime && a.name < b.name)

def insertLsT (e : DirEntry) : List DirEntry → List DirEntry
  | [] => [e]
  | b :: bs => if lsTBefore e b then e :: b :: bs else b :: insertLsT e bs

def sortLsT : List DirEntry → List DirEntry
  | [] => []
  | e :: es => insertLsT e (sortLsT es)

/-- The run script's auto-detect:
`ls -t *.jar 2>/dev/null | grep -vE '(\.old|\.bak)\.jar$' | head -n 1`.
The glob is case-sensitive and matches regular files ending in `.jar`;
`ls -t` orders by modification time (newest first, name ascending on ties);
the grep drops `.old.jar`/`.bak.jar` names; `head -n 1` takes the first. -/
def shellNewestJar (entries : List DirEntry) : Option String :=
  (((sortLsT (entries.filter
      (fun e => e.isFile && ['.', 'j', 'a', 'r'].isSuffixOf e.name.data))).filter
    (fun e => !isOldBakJar e.name)).head?).map (fun e => e.name)

/-! ## Port Allocator (`checkPortAvailable`, `getEphemeralPort`,
`findAvailablePort` in `route.ts`) -/

/-- The operating system's network state, as observed through exclusive binds
on the wildcard address: whether an exclusive bind of a given port succeeds,
and which port the OS hands out when port `0` is bound (together with whether
that bind itself succeeds). -/
structure NetEnv where
  bindOk : Nat → Bool
  ephemeralPort : Nat
  ephemeralOk : Bool

/-- `checkPortAvailable(port)`: `true` iff an exclusive `listen` on the
wildcard address succeeds (the listener is closed again immediately). -/
def checkPortAvailable (env : NetEnv) (port : Nat) : Bool :=
  env.bindOk port

/-- `getEphemeralPort()`: bind port `0`, read back the OS-assigned port,
close; rejects when the bind errors. -/
def getEphemeralPort (env : NetEnv) : Option Nat :=
  if env.ephemeralOk then some env.ephemeralPort else none

structure AllocResult where
  port : Nat
  autoPicked : Bool
deriving DecidableEq

/-- `findAvailablePort(preferred)`: try the preferred port once; if it is
taken, immediately fall over to an OS-assigned ephemeral port.  The second
component records the ports for which a bind was attempted, in order
(`0` stands for the ephemeral bind). -/
def findAvailablePort (env : NetEnv) (preferred : Nat) :
    Option AllocResult × List Nat :=
  if checkPortAvailable env preferred then (some ⟨preferred, false⟩, [preferred])
  else
    match getEphemeralPort env with
    | some e => (some ⟨e, true⟩, [preferred, 0])
    | none => (none, [preferred, 0])

/-! ## Backup Scheduler (run script: `parse_interval_to_seconds`,
`should_backup_now`, `do_backup`, `do_backup_on_stop`; cron variant:
`scripts/backup.sh`) -/

/-- Value of a digit in a positional numeral (hexadecimal letters allowed). -/
def hexVal (c : Char) : Nat :=
  if c.isDigit then c.toNat - '0'.toNat
  else if 'a' ≤ c && c ≤ 'f' then c.toNat - 'a'.toNat + 10
  else if 'A' ≤ c && c ≤ 'F' then c.toNat - 'A'.toNat + 10
  else 0

def digitsToNat (base : Nat) (s : List Char) : Nat :=
  s.foldl (fun acc c => acc * base + hexVal c) 0

def isIdentStart (c : Char) : Bool := c.isAlpha || c = '_'

def isIdentChar (c : Char) : Bool := c.isAlpha || c.isDigit || c = '_'

/-- A bash identifier, `[A-Za-z_][A-Za-z0-9_]*`. -/
def isBashIdent : List Char → Bool
  | [] => false
  | c :: cs => isIdentStart c && cs.all isIdentChar

def isOctalDigit (c : Char) : Bool := '0' ≤ c && c ≤ '7'

def isHexDigit (c : Char) : Bool :=
  c.isDigit || ('a' ≤ c && c ≤ 'f') || ('A' ≤ c && c ≤ 'F')

/-- Value of the shell variable `num` inside `$((num * k))`: bash evaluates
the variable's value as an arithmetic word, which can ERROR (`none`).
Surrounding whitespace is skipped.  An empty word and an identifier-like
word (an unset shell variable — the model assumes no clashing environment
variable is defined) evaluate to `0`.  A decimal numeral evaluates to its
value; a `0`-prefixed numeral is OCTAL, so a digit `8` or `9` in it is an
arithmetic error; `0x`/`0X` numerals are hexadecimal (a bare `0x` is an
empty hexadecimal numeral, value 0).  Every other word
(`2.5`, `1a`, …) is an arithmetic error.  (Words containing operators,
`#`-base notation, signs, or glob metacharacters — the latter additionally
disturb the `${val#$num}` unit split — cannot produce a value here and are
outside the model; all words appearing in the theorems below are plain.) -/
def bashArithEval (w : List Char) : Option Nat :=
  let s := ((w.dropWhile isWs).reverse.dropWhile isWs).reverse
  if s.isEmpty then some 0
  else if isBashIdent s then some 0
  else
    match s with
    | '0' :: 'x' :: rest =>
      if rest.all isHexDigit then some (digitsToNat 16 rest) else none
    | '0' :: 'X' :: rest =>
      if rest.all isHexDigit then some (digitsToNat 16 rest) else none
    | '0' :: rest =>
      if rest.all isOctalDigit then some (digitsToNat 8 rest) else none
    | _ =>
      if s.all Char.isDigit then some (digitsToNat 10 s) else none

/-- `parse_interval_to_seconds`: `num="${val%[smhdw]}"` strips one trailing
unit character and `unit="${val#$num}"` recovers it; the matching case arm
echoes `$((num * k))`, whose arithmetic evaluation of `num` can error —
then nothing is echoed and the caller sees an empty `interval_s` (`none`).
Without a trailing unit character, a nonempty all-digit value is echoed
verbatim (the caller's integer tests read it as decimal, leading zeros
included), and anything else falls back to `echo 0`. -/
def parse_interval_to_seconds (val : String) : Option Nat :=
  match val.data.getLast? with
  | some u =>
    if u = 's' then bashArithEval val.data.dropLast
    else if u = 'm' then (bashArithEval val.data.dropLast).map (· * 60)
    else if u = 'h' then (bashArithEval val.data.dropLast).map (· * 3600)
    else if u = 'd' then (bashArithEval val.data.dropLast).map (· * 86400)
    else if u = 'w' then (bashArithEval val.data.dropLast).map (· * 604800)
    else if !val.data.isEmpty && val.data.all Char.isDigit then
      some (digitsToNat 10 val.data)
    else some 0
  | none => some 0

/-- `should_backup_now`: requires `BACKUP_ON_STOP=TRUE`.  When the interval
parse errors, `interval_s` is empty: `[ "" -le 0 ]` itself errors (exit 2,
read as false), so the "always due" guard is skipped; a missing last-backup
file still returns "due" (that check precedes the comparison), but with a
stored timestamp the final `[ "$delta" -ge "" ]` errors too and the function
reports NOT due.  With a parsed value: zero is always due, a missing
timestamp is due, and otherwise it is due iff the elapsed seconds reach the
interval.  (The timestamp file is modelled as the decimal epoch value the
script itself writes.) -/
def should_backup_now (backupOnStop : Bool) (interval : String)
    (lastBackup : Option Nat) (now : Nat) : Bool :=
  if !backupOnStop then false
  else
    match parse_interval_to_seconds interval with
    | none =>
      match lastBackup with
      | none => true
      | some _ => false
    | some s =>
      if s = 0 then true
      else
        match lastBackup with
        | none => true
        | some last => now - last ≥ s

/-- State touched by the run script's backup path: the set of archive file
names under `backups/` and the world's last-backup timestamp file. -/
structure BakState where
  archives : List String
  lastBackup : Option Nat
deriving DecidableEq

/-- `tar -czf "$archive" …` creates the archive file, silently replacing an
existing file of the same name; on the file-set level an already-present name
stays present once. -/
def tarCreate (files : List String) (name : String) : List String :=
  if files.contains name then files else files ++ [name]

/-- Archive name used by `do_backup`:
`${BACKUP_DIR}/${WORLD_NAME}-${ts}.tar.gz` with `ts = date +%Y%m%d-%H%M%S`
(second resolution). -/
def doBackupArchiveName (world ts : String) : String :=
  world ++ "-" ++ ts ++ ".tar.gz"

/-- `do_backup`: skip when the world directory does not exist; otherwise
create the timestamped archive (no existence check, no retention) and
overwrite the last-backup timestamp file with the current time. -/
def do_backup (worldDirExists : Bool) (world ts : String) (now : Nat)
    (st : BakState) : BakState :=
  if !worldDirExists then st
  else
    { archives := tarCreate st.archives (doBackupArchiveName world ts)
      lastBackup := some now }

/-- `do_backup_on_stop`: run `do_backup` iff `BACKUP_ON_STOP=TRUE`, ignoring
the interval entirely. -/
def do_backup_on_stop (backupOnStop : Bool) (worldDirExists : Bool)
    (world ts : String) (now : Nat) (st : BakState) : BakState :=
  if backupOnStop then do_backup worldDirExists world ts now st else st

/-! ## Cron/shutdown backup variant (`scripts/backup.sh`) with retention -/

/-- A file in the per-world backup directory, with its modification time
(archives are created once and never touched, so this is creation time). -/
structure CronFile where
  name : String
  ctime : Nat
deriving DecidableEq

/-- `${BACKUP_DIR}/${WORLD_NAME}_${DATE}.tar.gz`. -/
def cronArchiveBase (world date : String) : String :=
  world ++ "_" ++ date ++ ".tar.gz"

/-- The disambiguated name `${WORLD_NAME}_${DATE}_${TIME}.tar.gz` used when
the date-named archive already exists. -/
def cronArchiveTimed (world date time : String) : String :=
  world ++ "_" ++ date ++ "_" ++ time ++ ".tar.gz"

/-- The glob `${WORLD_NAME}_*.tar.gz` used by the retention pipeline. -/
def matchesWorldArchive (world : String) (name : String) : Bool :=
  (world ++ "_").data.isPrefixOf name.data &&
  ['.', 't', 'a', 'r', '.', 'g', 'z'].isSuffixOf name.data

/-- `tar -czf` at file-set level for the cron directory: replace an existing
file of the same name (its time becomes `now`), else add the file. -/
def tarCreateCron (files : List CronFile) (name : String) (now : Nat) :
    List CronFile :=
  if files.any (fun f => f.name == name) then
    files.map (fun f => if f.name == name then ⟨name, now⟩ else f)
  else files ++ [⟨name, now⟩]

/-- `ls -t` order for cron files: newest first, name ascending on ties. -/
def lsTCronBefore (a b : CronFile) : Bool :=
  a.ctime > b.ctime || (a.ctime = b.ctime && a.name < b.name)

def insertLsTCron (e : CronFile) : List CronFile → List CronFile
  | [] => [e]
  | b :: bs => if lsTCronBefore e b then e :: b :: bs else b :: insertLsTCron e bs

def sortLsTCron : List CronFile → List CronFile
  | [] => []
  | e :: es => insertLsTCron e (sortLsTCron es)

/-- `scripts/backup.sh`: fail when the world directory is missing; name the
archive after the day, appending the time when the day-named archive already
exists; create it; then `ls -t ${WORLD_NAME}_*.tar.gz | tail -n +11 |
xargs -r rm`: keep the ten newest matching archives and delete the rest.
Returns `none` on the missing-directory failure path. -/
def backup_sh (worldDirExists : Bool) (world date time : String) (now : Nat)
    (files : List CronFile) : Option (List CronFile) :=
  if !worldDirExists then none
  else
    let base := cronArchiveBase world date
    let target :=
      if files.any (fun f => f.name == base) then cronArchiveTimed world date time
      else base
    let files1 := tarCreateCron files target now
    let keep := (sortLsTCron (files1.filter
      (fun f => matchesWorldArchive world f.name))).take 10
    some (files1.filter (fun f => !matchesWorldArchive world f.name) ++ keep)

/-- Number of archive files for a world in the cron backup directory. -/
def worldArchiveCount (world : String) (files : List CronFile) : Nat :=
  (files.filter (fun f => matchesWorldArchive world f.name)).length

/-! ## PID Registry and Process Supervisor
(`gui/src/app/api/server/start/route.ts` POST start, POST stop handler, and
the status route `GET`) -/

/-- The per-process world-supervision state: the PID registry directory
(`.mc-pids/<world>.pid`, one record per world holding the decimal process id
written by `start` — we model the parsed integer value, since
`Number.parseInt` recovers exactly what `String(child.pid)` wrote), the
existing world directories, the set of pids for which signal delivery
succeeds, the backup archives present, a log of termination signals sent,
and the OS behaviour for the next spawn (assigned pid and whether `spawn`
succeeds). -/
structure SupState where
  pidFiles : List (String × Int)
  worldDirs : List String
  procs : List Int
  backups : List String
  sigLog : List Int
  nextPid : Int
  spawnOk : Bool
deriving DecidableEq

/-- Read a world's PID record (`fs.readFile(pidFile(name))`), `none` when the
file does not exist. -/
def pidLookup (files : List (String × Int)) (w : String) : Option Int :=
  (files.find? (fun kv => kv.1 == w)).map (fun kv => kv.2)

/-- `fs.unlink(pidFile(name))`. -/
def pidRemove (files : List (String × Int)) (w : String) : List (String × Int) :=
  files.filter (fun kv => kv.1 != w)

/-- `fs.writeFile(pidFile(name), String(pid))` — overwrites any prior record. -/
def pidWrite (files : List (String × Int)) (w : String) (p : Int) :
    List (String × Int) :=
  (w, p) :: pidRemove files w

/-- `mkdir -p` / `fs.mkdir(p, { recursive: true })` at the set level. -/
def ensureDirList (dirs : List String) (d : String) : List String :=
  if dirs.contains d then dirs else dirs ++ [d]

/-- Success of `process.kill(pid, sig)` against the modelled OS. -/
def signalDeliverable (st : SupState) (p : Int) : Bool :=
  st.procs.contains p

/-- `isAlive` of the start route: `process.kill(pid, 0)` succeeds. -/
def isAliveStart (st : SupState) (p : Int) : Bool :=
  signalDeliverable st p

/-- `isAlive` of the stop and status routes: additionally rejects
non-positive pids before signalling. -/
def isAliveStatus (st : SupState) (p : Int) : Bool :=
  if p ≤ 0 then false else signalDeliverable st p

/-- Registry-level `lookup(world) -> pid | absent` (spec §4.3): a record
whose stored value is `0` is treated as absent, because every route guards
the parsed value with JavaScript truthiness (`existing && …`) or an explicit
`pid <= 0` check before trusting it. -/
def lookup (st : SupState) (w : String) : Option Int :=
  match pidLookup st.pidFiles w with
  | none => none
  | some p => if p = 0 then none else some p

inductive StatusResult where
  | badRequest
  | ok (running : Bool) (pid : Option Int)
deriving DecidableEq

/-- The status route (`GET`): read the PID record, re-verify liveness, and
report `{running, pid}`; a missing record is simply "not running".  The
route performs no writes. -/
def statusHandler (st : SupState) (worldName : String) :
    StatusResult × SupState :=
  let name := jsTrim worldName
  if name = "" then (.badRequest, st)
  else
    match pidLookup st.pidFiles name with
    | none => (.ok false none, st)
    | some p =>
      let running := isAliveStatus st p
      (.ok running (if running then some p else none), st)

inductive StopResult where
  | badRequest
  | alreadyStoppedNoFile
  | alreadyStoppedStale
  | alreadyStoppedRace
  | stopped (pid : Int)
deriving DecidableEq

/-- The stop route (`POST`): missing record ⇒ idempotent "already stopped"
with no further action; dead pid ⇒ unlink the stale record and "already
stopped"; live pid ⇒ send `SIGTERM` (logged in `sigLog`), unlink the record,
and return `{stopped: true, pid}` (a `SIGTERM` delivery failure is folded
into the "already stopped" path, the record being unlinked as well). -/
def stopHandler (st : SupState) (worldName : String) : StopResult × SupState :=
  let name := jsTrim worldName
  if name = "" then (.badRequest, st)
  else
    match pidLookup st.pidFiles name with
    | none => (.alreadyStoppedNoFile, st)
    | some p =>
      if !isAliveStatus st p then
        (.alreadyStoppedStale, { st with pidFiles := pidRemove st.pidFiles name })
      else if signalDeliverable st p then
        (.stopped p,
          { st with
            pidFiles := pidRemove st.pidFiles name
            sigLog := p :: st.sigLog })
      else
        (.alreadyStoppedRace, { st with pidFiles := pidRemove st.pidFiles name })

inductive StartResult where
  | badRequest
  | badPort
  | conflict
  | jarUnavailable
  | portFailed
  | spawnFailed
  | ok (pid : Int) (requestedPort chosenPort : Nat) (autoPicked : Bool)
      (jar : String)
deriving DecidableEq

/-- Environment consulted by the start route besides the supervision state:
the network, the directory listing in which jars are resolved, and the
outcome of `downloadLatestServerJar` (the path of the downloaded jar, or
`none` when the manifest/download chain fails). -/
structure StartEnv where
  net : NetEnv
  jarDirEntries : List DirEntry
  download : Option String

/-- The already-running guard of the start route:
`existing && (await isAlive(existing))` — the parsed pid must be truthy (a
nonzero number) and signallable. -/
def runningGuard (st : SupState) (name : String) : Bool :=
  match pidLookup st.pidFiles name with
  | none => false
  | some p => p != 0 && isAliveStart st p

/-- Jar resolution of the start route: an explicitly supplied `serverJar`
wins; otherwise the newest existing jar of the jar directory; otherwise the
downloaded latest release (`none` when that download chain fails). -/
def resolveJar (env : StartEnv) (serverJar : String) : Option String :=
  if serverJar ≠ "" then some serverJar
  else
    match findExistingJar env.jarDirEntries with
    | some j => some j
    | none => env.download

/-- The start route (`POST`): reject an empty (trimmed) name, then an
out-of-range port; bail out with a conflict when the recorded pid is truthy
and alive; ensure the world directory; resolve the jar (explicit
`serverJar`, else newest existing jar, else download); allocate a port;
spawn and record the child pid. -/
def startHandler (st : SupState) (env : StartEnv)
    (worldName memory serverJar : String) (requestedPort : Int) :
    StartResult × SupState :=
  let name := jsTrim worldName
  if name = "" then (.badRequest, st)
  else if requestedPort < 1 || requestedPort > 65535 then (.badPort, st)
  else if runningGuard st name then (.conflict, st)
  else
    let st1 := { st with worldDirs := ensureDirList st.worldDirs name }
    match resolveJar env serverJar with
    | none => (.jarUnavailable, st1)
    | some jar =>
      match (findAvailablePort env.net requestedPort.toNat).1 with
      | none => (.portFailed, st1)
      | some res =>
        if st.spawnOk then
          (.ok st.nextPid requestedPort.toNat res.port res.autoPicked jar,
            { st1 with
              procs := st.nextPid :: st.procs
              pidFiles := pidWrite st.pidFiles name st.nextPid })
        else (.spawnFailed, st1)

/-- `validateWorldName` (whitelist / server-properties routes):
`/^[A-Za-z0-9._-]+$/`. -/
def validChar (c : Char) : Bool :=
  c.isAlpha || c.isDigit || c = '.' || c = '_' || c = '-'

def validateWorldName (w : String) : Bool :=
  w ≠ "" && w.data.all validChar

/-! ## Helper lemmas -/

/-- The head of the stable descending sort is the first entry of maximal
modification time in listing order. -/
theorem sortByMtimeDesc_head (l : List DirEntry) :
    (sortByMtimeDesc l).head? = firstNewest l := by
  induction l with
  | nil => rfl
  | cons e es ih =>
    simp only [sortByMtimeDesc, firstNewest, ← ih]
    cases h : sortByMtimeDesc es with
    | nil => simp [insertByMtime, h]
    | cons b bs =>
      simp only [h, List.head?]
      by_cases hle : e.mtime ≥ b.mtime
      · simp [insertByMtime, hle, Nat.not_lt_of_le hle]
      · have hlt : b.mtime > e.mtime := Nat.lt_of_not_le hle
        simp [insertByMtime, hle, hlt]

theorem validChar_not_ws (c : Char) (h : validChar c = true) : isWs c = false := by
  cases hw : isWs c with
  | false => rfl
  | true =>
    simp only [isWs, Bool.or_eq_true, decide_eq_true_eq] at hw
    rcases hw with ((h1 | h1) | h1) | h1 <;> subst h1 <;> revert h <;> decide

theorem dropWhile_isWs_eq_self {l : List Char}
    (h : ∀ c ∈ l, validChar c = true) : l.dropWhile isWs = l := by
  cases l with
  | nil => rfl
  | cons a as =>
    have ha : isWs a = false := validChar_not_ws a (h a (by simp))
    simp [List.dropWhile, ha]

/-- A name accepted by `validateWorldName` survives `trim()` unchanged and is
nonempty. -/
theorem jsTrim_of_valid (w : String) (h : validateWorldName w = true) :
    jsTrim w = w ∧ ¬ (w = "") := by
  simp only [validateWorldName, Bool.and_eq_true, decide_eq_true_eq,
    List.all_eq_true] at h
  obtain ⟨hne, hall⟩ := h
  refine ⟨?_, hne⟩
  have h1 : w.data.dropWhile isWs = w.data := dropWhile_isWs_eq_self hall
  have h2 : (w.data.reverse).dropWhile isWs = w.data.reverse :=
    dropWhile_isWs_eq_self (fun c hc => hall c (List.mem_reverse.mp hc))
  show String.mk (((w.data.dropWhile isWs).reverse.dropWhile isWs).reverse) = w
  rw [h1, h2, List.reverse_reverse]

theorem pidLookup_pidWrite_self (files : List (String × Int)) (w : String)
    (p : Int) : pidLookup (pidWrite files w p) w = some p := by
  simp [pidLookup, pidWrite, List.find?_cons]

/-! ## Claim C5 — port allocation -/

/-- C5: for a requested port in `[1, 65535]`, if the exclusive bind of the
requested port succeeds, the allocator returns that port with
`portWasReassigned = false`, having attempted only that one bind; if the bind
fails it immediately falls over to the OS-assigned ephemeral port (one bind of
port `0`, never re-trying the preferred port), which — being bindable, hence
free — differs from the requested one, and is returned with
`portWasReassigned = true`. -/
theorem C5_port_allocation (env : NetEnv) (p : Nat)
    (hlo : 1 ≤ p) (hhi : p ≤ 65535)
    (hfree : env.bindOk env.ephemeralPort = true)
    (heph : env.ephemeralOk = true) :
    (env.bindOk p = true →
      findAvailablePort env p = (some ⟨p, false⟩, [p]))
    ∧ (env.bindOk p = false →
      findAvailablePort env p = (some ⟨env.ephemeralPort, true⟩, [p, 0]) ∧
        ¬ (env.ephemeralPort = p)) := by
  constructor
  · intro h
    simp [findAvailablePort, checkPortAvailable, h]
  · intro h
    refine ⟨by simp [findAvailablePort, checkPortAvailable, h,
      getEphemeralPort, heph], ?_⟩
    intro hEq
    rw [hEq] at hfree
    rw [hfree] at h
    exact Bool.noConfusion h

/-- Witness for C5 at concrete environments: port 25565 taken (ephemeral
49152 assigned), and port 25565 free. -/
theorem C5_port_allocation_witness :
    findAvailablePort ⟨fun q => decide (¬ (q = 25565)), 49152, true⟩ 25565 =
      (some ⟨49152, true⟩, [25565, 0]) ∧
    findAvailablePort ⟨fun _ => true, 49152, true⟩ 25565 =
      (some ⟨25565, false⟩, [25565]) := by
  constructor
  · exact ((C5_port_allocation ⟨fun q => decide (¬ (q = 25565)), 49152, true⟩
      25565 (by decide) (by decide) (by decide) rfl).2 (by decide)).1
  · exact (C5_port_allocation ⟨fun _ => true, 49152, true⟩ 25565
      (by decide) (by decide) rfl rfl).1 rfl

/-! ## Claim C8 — interval gating of `backupIfDue` -/

/-- C8: the claim — an unparsable or zero interval is always due ("failing
open"), a missing timestamp is due, and a parsable positive interval is due
exactly when the elapsed seconds reach it — matches the code's own comment
(`# If parsing failed, default to always backup`), but the code misses the
arithmetic-error path.  An interval whose numeric prefix is not a valid bash
numeral (`2.5h`; `08h`, an invalid octal; `1as`) makes `$((num * 3600))`
ERROR: `interval_s` stays empty, both integer tests fail, and with a stored
timestamp the function reports NOT due at every elapsed time — failing
closed.  The conjuncts evaluate the model at these failing inputs, and
record the behaviours that do survive: a missing timestamp file is due even
on a parse error (that check precedes the failing comparison); a zero or
identifier-like interval (bash value 0) is due; a `0`-prefixed numeral is
read as octal (`017h` is 15 hours, not 17); and the `24h` interval is not
due at 23 elapsed hours and due at 25. -/
theorem C8_interval_fail_closed :
    parse_interval_to_seconds "2.5h" = none ∧
    parse_interval_to_seconds "08h" = none ∧
    parse_interval_to_seconds "1as" = none ∧
    should_backup_now true "2.5h" (some 0) 90000 = false ∧
    should_backup_now true "08h" (some 0) 90000 = false ∧
    should_backup_now true "1as" (some 0) 90000 = false ∧
    should_backup_now true "2.5h" none 90000 = true ∧
    parse_interval_to_seconds "017h" = some 54000 ∧
    parse_interval_to_seconds "0" = some 0 ∧
    should_backup_now true "0" (some 5) 100 = true ∧
    should_backup_now true "garbage" (some 5) 100 = true ∧
    parse_interval_to_seconds "24h" = some 86400 ∧
    should_backup_now true "24h" none 100 = true ∧
    should_backup_now true "24h" (some 0) 82800 = false ∧
    should_backup_now true "24h" (some 0) 90000 = true := by
  refine ⟨?_, ?_, ?_, ?_, ?_, ?_, ?_, ?_, ?_, ?_, ?_, ?_, ?_, ?_, ?_⟩ <;>
    decide

/-! ## Claim C3 — idempotent stop of a never-started world -/

/-- C3: for a valid world name with no registry record, `stop` returns the
idempotent "already stopped" outcome and the state is returned untouched: no
signal is sent (the signal log is unchanged) and nothing is mutated. -/
theorem C3_stop_never_started (st : SupState) (w : String)
    (hv : validateWorldName w = true)
    (hnone : pidLookup st.pidFiles w = none) :
    stopHandler st w = (.alreadyStoppedNoFile, st) := by
  obtain ⟨ht, hne⟩ := jsTrim_of_valid w hv
  simp [stopHandler, ht, hne, hnone]

/-- Shape of a successful start: under a trimmed nonempty name, a valid
port, a failed already-running guard, a resolvable jar, a successful port
allocation and a successful spawn, the handler spawns one process with the
OS-assigned pid and records it in the registry. -/
theorem startHandler_success_shape (st : SupState) (env : StartEnv)
    (w mem sj : String) (port : Int) (jar : String) (res : AllocResult)
    (ht : jsTrim w = w) (hne : ¬ (w = ""))
    (hlo : 1 ≤ port) (hhi : port ≤ 65535)
    (hrun : runningGuard st w = false)
    (hjar : resolveJar env sj = some jar)
    (hport : (findAvailablePort env.net port.toNat).1 = some res)
    (hspawn : st.spawnOk = true) :
    startHandler st env w mem sj port =
      (.ok st.nextPid port.toNat res.port res.autoPicked jar,
        { st with
          worldDirs := ensureDirList st.worldDirs w
          procs := st.nextPid :: st.procs
          pidFiles := pidWrite st.pidFiles w st.nextPid }) := by
  have h1 : ¬ (port < 1) := by omega
  have h2 : ¬ (port > 65535) := by omega
  simp [startHandler, ht, hne, h1, h2, hrun, hjar, hport, hspawn]

/-- Witness for C3: a concrete state with an empty registry. -/
theorem C3_stop_never_started_witness :
    validateWorldName "Alpha" = true ∧
    stopHandler ⟨[("Beta", 9)], ["Beta"], [9], [], [], 7, true⟩ "Alpha" =
      (.alreadyStoppedNoFile, ⟨[("Beta", 9)], ["Beta"], [9], [], [], 7, true⟩) :=
  ⟨by decide, C3_stop_never_started
    ⟨[("Beta", 9)], ["Beta"], [9], [], [], 7, true⟩ "Alpha"
    (by decide) (by decide)⟩

/-! ## Claim C2 — start on an already-running world -/

/-- C2: (i) when the registry lookup yields a pid for a valid world name and
the liveness check on that pid succeeds, `start` fails with the
`AlreadyRunning` conflict and the state is returned untouched — no spawn, no
registry write; (ii) hence a successful `start` followed immediately by a
second `start` of the same world spawns exactly one process in total (the
first call adds exactly one pid, the second returns the conflict leaving the
state unchanged). -/
theorem C2_start_already_running :
    (∀ (st : SupState) (env : StartEnv) (w mem sj : String) (port : Int)
      (p : Int),
      validateWorldName w = true → 1 ≤ port → port ≤ 65535 →
      lookup st w = some p → isAliveStart st p = true →
      startHandler st env w mem sj port = (.conflict, st))
    ∧ (∀ (st : SupState) (env : StartEnv) (w mem sj : String) (port : Int)
      (jar : String) (res : AllocResult),
      validateWorldName w = true → 1 ≤ port → port ≤ 65535 →
      runningGuard st w = false →
      resolveJar env sj = some jar →
      (findAvailablePort env.net port.toNat).1 = some res →
      st.spawnOk = true → 0 < st.nextPid →
      ∃ st1 : SupState,
        startHandler st env w mem sj port =
          (.ok st.nextPid port.toNat res.port res.autoPicked jar, st1) ∧
        st1.procs = st.nextPid :: st.procs ∧
        startHandler st1 env w mem sj port = (.conflict, st1)) := by
  constructor
  · intro st env w mem sj port p hv hlo hhi hlk halive
    obtain ⟨ht, hne⟩ := jsTrim_of_valid w hv
    have h1 : ¬ (port < 1) := by omega
    have h2 : ¬ (port > 65535) := by omega
    unfold lookup at hlk
    cases hfind : pidLookup st.pidFiles w with
    | none => simp [hfind] at hlk
    | some q =>
      simp only [hfind] at hlk
      by_cases hq : q = 0
      · simp [hq] at hlk
      · simp only [if_neg hq] at hlk
        cases hlk
        have hrun : runningGuard st w = true := by
          simp [runningGuard, hfind, hq, halive]
        simp [startHandler, ht, hne, h1, h2, hrun]
  · intro st env w mem sj port jar res hv hlo hhi hrun hjar hport hspawn hpid
    obtain ⟨ht, hne⟩ := jsTrim_of_valid w hv
    refine ⟨_, startHandler_success_shape st env w mem sj port jar res
      ht hne hlo hhi hrun hjar hport hspawn, rfl, ?_⟩
    have hrun1 : runningGuard
        { st with
          worldDirs := ensureDirList st.worldDirs w
          procs := st.nextPid :: st.procs
          pidFiles := pidWrite st.pidFiles w st.nextPid } w = true := by
      simp [runningGuard, pidLookup_pidWrite_self, isAliveStart,
        signalDeliverable, List.contains_cons]
      omega
    have h1 : ¬ (port < 1) := by omega
    have h2 : ¬ (port > 65535) := by omega
    simp [startHandler, ht, hne, h1, h2, hrun1]

/-- Witness for C2 at concrete inputs: a first start of `Alpha` spawning pid
100 followed by a second start observing the conflict, and a direct start of
`Gamma` whose registry already holds the live pid 42. -/
theorem C2_start_already_running_witness :
    (∃ st1 : SupState,
      startHandler ⟨[], [], [], [], [], 100, true⟩
          ⟨⟨fun _ => true, 49152, true⟩, [⟨"server.jar", 5, true⟩], none⟩
          "Alpha" "4G" "" 25565 =
        (.ok 100 25565 25565 false "server.jar", st1) ∧
      st1.procs = [100] ∧
      startHandler st1
          ⟨⟨fun _ => true, 49152, true⟩, [⟨"server.jar", 5, true⟩], none⟩
          "Alpha" "4G" "" 25565 = (.conflict, st1)) ∧
    startHandler ⟨[("Gamma", 42)], ["Gamma"], [42], [], [], 100, true⟩
        ⟨⟨fun _ => true, 49152, true⟩, [⟨"server.jar", 5, true⟩], none⟩
        "Gamma" "4G" "" 25565 =
      (.conflict, ⟨[("Gamma", 42)], ["Gamma"], [42], [], [], 100, true⟩) := by
  constructor
  · exact C2_start_already_running.2 ⟨[], [], [], [], [], 100, true⟩
      ⟨⟨fun _ => true, 49152, true⟩, [⟨"server.jar", 5, true⟩], none⟩
      "Alpha" "4G" "" 25565 "server.jar" ⟨25565, false⟩
      (by decide) (by decide) (by decide) (by decide) (by decide) rfl rfl
      (by decide)
  · exact C2_start_already_running.1 ⟨[("Gamma", 42)], ["Gamma"], [42], [], [], 100, true⟩
      ⟨⟨fun _ => true, 49152, true⟩, [⟨"server.jar", 5, true⟩], none⟩
      "Gamma" "4G" "" 25565 42
      (by decide) (by decide) (by decide) (by decide) (by decide)

/-! ## Claim C1 — stop and the shutdown backup -/

/-- C1 counterexample: a world whose registry holds the live pid 42.  The
stop route returns `{stopped: true, pid: 42}` and clears the registry entry,
but the set of backup archives is unchanged (empty before, empty after): the
route triggers no shutdown backup at all — it consults no backup flag and
calls no backup code — so no new backup archive is produced, contrary to the
claim. -/
theorem C1_stop_no_backup_counterexample :
    stopHandler ⟨[("Alpha", 42)], ["Alpha"], [42], [], [], 100, true⟩ "Alpha" =
      (.stopped 42, ⟨[], ["Alpha"], [42], [], [42], 100, true⟩) ∧
    (stopHandler ⟨[("Alpha", 42)], ["Alpha"], [42], [], [], 100, true⟩
      "Alpha").2.backups.length = 0 := by
  constructor
  · decide
  · decide

/-- C1 amended: for a valid world whose registry lookup yields a live pid,
the registry-based stop route sends `SIGTERM`, clears the registry entry and
returns `{stopped: true, pid}`, leaving the backup archives untouched — it
triggers no backup.  Shutdown backups instead belong to the shell path: the
run script's `do_backup_on_stop` (fired by its trap/exit path) creates the
archive whenever `BACKUP_ON_STOP=TRUE` and the world directory exists,
ignoring the interval. -/
theorem C1_stop_amended :
    (∀ (st : SupState) (w : String) (p : Int),
      validateWorldName w = true →
      pidLookup st.pidFiles w = some p → 0 < p →
      signalDeliverable st p = true →
      stopHandler st w =
        (.stopped p,
          { st with
            pidFiles := pidRemove st.pidFiles w
            sigLog := p :: st.sigLog }))
    ∧ (∀ (world ts : String) (now : Nat) (st : BakState),
      (do_backup_on_stop true true world ts now st).archives =
        tarCreate st.archives (doBackupArchiveName world ts)) := by
  constructor
  · intro st w p hv hfind hpos halive
    obtain ⟨ht, hne⟩ := jsTrim_of_valid w hv
    have hstat : isAliveStatus st p = true := by
      simp [isAliveStatus, halive]
      omega
    simp [stopHandler, ht, hne, hfind, hstat, halive]
  · intro world ts now st
    simp [do_backup_on_stop, do_backup]

/-- Witness for the amended C1: stopping `Alpha` with live pid 42 clears the
entry, logs the `SIGTERM` and leaves `backups` empty; and the run script's
shutdown backup with the flag enabled creates the archive. -/
theorem C1_stop_amended_witness :
    stopHandler ⟨[("Alpha", 42)], ["Alpha"], [42], ["old.tar.gz"], [], 9, true⟩
        "Alpha" =
      (.stopped 42,
        ⟨[], ["Alpha"], [42], ["old.tar.gz"], [42], 9, true⟩) ∧
    (do_backup_on_stop true true "Alpha" "20240101-120000" 77
        ⟨[], none⟩).archives = ["Alpha-20240101-120000.tar.gz"] := by
  constructor
  · exact C1_stop_amended.1
      ⟨[("Alpha", 42)], ["Alpha"], [42], ["old.tar.gz"], [], 9, true⟩
      "Alpha" 42 (by decide) (by decide) (by decide) (by decide)
  · rw [C1_stop_amended.2 "Alpha" "20240101-120000" 77 ⟨[], none⟩]
    decide

/-! ## Claim C4 — self-healing of stale PID records -/

/-- C4 counterexample: the registry holds pid 42 for `Alpha` but no such
process is alive.  The status route reports `running = false` yet returns
the state unchanged — the stale record `("Alpha", 42)` is still in the
registry after the call, so `status` does not clear stale entries. -/
theorem C4_status_keeps_stale_counterexample :
    isAliveStatus ⟨[("Alpha", 42)], ["Alpha"], [], [], [], 9, true⟩ 42 = false ∧
    statusHandler ⟨[("Alpha", 42)], ["Alpha"], [], [], [], 9, true⟩ "Alpha" =
      (.ok false none, ⟨[("Alpha", 42)], ["Alpha"], [], [], [], 9, true⟩) := by
  constructor
  · decide
  · decide

/-- C4 amended: only `stop` self-heals a stale PID record — on discovering a
recorded pid that fails the liveness check it unlinks the record and returns
"already stopped".  `status` never mutates the state at all (it only
reports), and `start` does not clear a stale record upon discovery either:
it ignores it and, when the rest of the call succeeds, overwrites the record
with the freshly spawned pid. -/
theorem C4_stale_selfheal_amended :
    (∀ (st : SupState) (w : String) (p : Int),
      validateWorldName w = true →
      pidLookup st.pidFiles w = some p → isAliveStatus st p = false →
      stopHandler st w =
        (.alreadyStoppedStale,
          { st with pidFiles := pidRemove st.pidFiles w }))
    ∧ (∀ (st : SupState) (w : String), (statusHandler st w).2 = st)
    ∧ (∀ (st : SupState) (env : StartEnv) (w mem sj : String) (port : Int)
      (p : Int) (jar : String) (res : AllocResult),
      validateWorldName w = true → 1 ≤ port → port ≤ 65535 →
      pidLookup st.pidFiles w = some p → isAliveStart st p = false →
      resolveJar env sj = some jar →
      (findAvailablePort env.net port.toNat).1 = some res →
      st.spawnOk = true →
      startHandler st env w mem sj port =
        (.ok st.nextPid port.toNat res.port res.autoPicked jar,
          { st with
            worldDirs := ensureDirList st.worldDirs w
            procs := st.nextPid :: st.procs
            pidFiles := pidWrite st.pidFiles w st.nextPid })) := by
  refine ⟨?_, ?_, ?_⟩
  · intro st w p hv hfind hdead
    obtain ⟨ht, hne⟩ := jsTrim_of_valid w hv
    simp [stopHandler, ht, hne, hfind, hdead]
  · intro st w
    unfold statusHandler
    dsimp only
    split
    · rfl
    · split <;> rfl
  · intro st env w mem sj port p jar res hv hlo hhi hfind hdead hjar hport hspawn
    obtain ⟨ht, hne⟩ := jsTrim_of_valid w hv
    have hrun : runningGuard st w = false := by
      simp [runningGuard, hfind, hdead]
    exact startHandler_success_shape st env w mem sj port jar res
      ht hne hlo hhi hrun hjar hport hspawn

/-- Witness for the amended C4: stop clears the stale record for `Alpha`
(pid 42 dead); status leaves a concrete state untouched; start over the
stale record succeeds and overwrites it with the new pid 100. -/
theorem C4_stale_selfheal_amended_witness :
    stopHandler ⟨[("Alpha", 42)], ["Alpha"], [], [], [], 100, true⟩ "Alpha" =
      (.alreadyStoppedStale, ⟨[], ["Alpha"], [], [], [], 100, true⟩) ∧
    (statusHandler ⟨[("Alpha", 42)], ["Alpha"], [], [], [], 100, true⟩
      "Alpha").2 = ⟨[("Alpha", 42)], ["Alpha"], [], [], [], 100, true⟩ ∧
    startHandler ⟨[("Alpha", 42)], ["Alpha"], [], [], [], 100, true⟩
        ⟨⟨fun _ => true, 49152, true⟩, [⟨"server.jar", 5, true⟩], none⟩
        "Alpha" "4G" "" 25565 =
      (.ok 100 25565 25565 false "server.jar",
        ⟨[("Alpha", 100)], ["Alpha"], [100], [], [], 100, true⟩) := by
  refine ⟨?_, ?_, ?_⟩
  · exact C4_stale_selfheal_amended.1
      ⟨[("Alpha", 42)], ["Alpha"], [], [], [], 100, true⟩ "Alpha" 42
      (by decide) (by decide) (by decide)
  · exact C4_stale_selfheal_amended.2.1
      ⟨[("Alpha", 42)], ["Alpha"], [], [], [], 100, true⟩ "Alpha"
  · exact C4_stale_selfheal_amended.2.2
      ⟨[("Alpha", 42)], ["Alpha"], [], [], [], 100, true⟩
      ⟨⟨fun _ => true, 49152, true⟩, [⟨"server.jar", 5, true⟩], none⟩
      "Alpha" "4G" "" 25565 42 "server.jar" ⟨25565, false⟩
      (by decide) (by decide) (by decide) (by decide) (by decide) (by decide)
      rfl rfl

/-! ## Claim C6 — world-name validation on the supervision routes -/

/-- C6 counterexample: `"../evil"` does not match `[A-Za-z0-9._-]+`, yet the
start route accepts it — the only name check is nonemptiness after trimming
— and proceeds to mutate: it creates the world directory `"../evil"`, spawns
a process and writes a registry record under that name, returning a success
rather than a validation error. -/
theorem C6_no_regex_validation_counterexample :
    validateWorldName "../evil" = false ∧
    startHandler ⟨[], [], [], [], [], 100, true⟩
        ⟨⟨fun _ => true, 49152, true⟩, [⟨"server.jar", 5, true⟩], none⟩
        "../evil" "4G" "" 25565 =
      (.ok 100 25565 25565 false "server.jar",
        ⟨[("../evil", 100)], ["../evil"], [100], [], [], 100, true⟩) := by
  constructor
  · decide
  · decide

/-- C6 amended: the supervision routes validate only that the world name is
nonempty after trimming.  An empty (trimmed) name is rejected by `start`,
`stop` and `status` before any mutation — the state comes back untouched —
but any nonempty trimmed name (matching the `[A-Za-z0-9._-]+` pattern or
not) passes the name check of `start`: with a valid port the result is never
a validation rejection.  The pattern itself is enforced only by the
whitelist/server-properties routes' `validateWorldName`. -/
theorem C6_name_validation_amended :
    (∀ (st : SupState) (env : StartEnv) (w mem sj : String) (port : Int),
      jsTrim w = "" →
      startHandler st env w mem sj port = (.badRequest, st))
    ∧ (∀ (st : SupState) (w : String), jsTrim w = "" →
      stopHandler st w = (.badRequest, st))
    ∧ (∀ (st : SupState) (w : String), jsTrim w = "" →
      statusHandler st w = (.badRequest, st))
    ∧ (∀ (st : SupState) (env : StartEnv) (w mem sj : String) (port : Int),
      ¬ (jsTrim w = "") → 1 ≤ port → port ≤ 65535 →
      ¬ ((startHandler st env w mem sj port).1 = .badRequest) ∧
      ¬ ((startHandler st env w mem sj port).1 = .badPort)) := by
  refine ⟨?_, ?_, ?_, ?_⟩
  · intro st env w mem sj port h
    simp [startHandler, h]
  · intro st w h
    simp [stopHandler, h]
  · intro st w h
    simp [statusHandler, h]
  · intro st env w mem sj port hne hlo hhi
    have h1 : ¬ (port < 1) := by omega
    have h2 : ¬ (port > 65535) := by omega
    unfold startHandler
    dsimp only
    rw [if_neg hne, if_neg (by simp [h1, h2])]
    split
    · exact ⟨by simp, by simp⟩
    · split
      · exact ⟨by simp, by simp⟩
      · split
        · exact ⟨by simp, by simp⟩
        · split <;> exact ⟨by simp, by simp⟩

/-- Witness for the amended C6: whitespace-only and empty names are rejected
by all three routes on a concrete state, and the nonempty — but
pattern-violating — name `"../evil"` is not rejected as a bad name. -/
theorem C6_name_validation_amended_witness :
    startHandler ⟨[], [], [], [], [], 9, true⟩
        ⟨⟨fun _ => true, 49152, true⟩, [], none⟩ "   " "4G" "" 25565 =
      (.badRequest, ⟨[], [], [], [], [], 9, true⟩) ∧
    stopHandler ⟨[], [], [], [], [], 9, true⟩ "" =
      (.badRequest, ⟨[], [], [], [], [], 9, true⟩) ∧
    statusHandler ⟨[], [], [], [], [], 9, true⟩ "" =
      (.badRequest, ⟨[], [], [], [], [], 9, true⟩) ∧
    ¬ ((startHandler ⟨[], [], [], [], [], 9, true⟩
        ⟨⟨fun _ => true, 49152, true⟩, [], none⟩
        "../evil" "4G" "" 25565).1 = .badRequest) := by
  refine ⟨?_, ?_, ?_, ?_⟩
  · exact C6_name_validation_amended.1 ⟨[], [], [], [], [], 9, true⟩
      ⟨⟨fun _ => true, 49152, true⟩, [], none⟩ "   " "4G" "" 25565 (by decide)
  · exact C6_name_validation_amended.2.1 ⟨[], [], [], [], [], 9, true⟩ ""
      (by decide)
  · exact C6_name_validation_amended.2.2.1 ⟨[], [], [], [], [], 9, true⟩ ""
      (by decide)
  · exact (C6_name_validation_amended.2.2.2 ⟨[], [], [], [], [], 9, true⟩
      ⟨⟨fun _ => true, 49152, true⟩, [], none⟩ "../evil" "4G" "" 25565
      (by decide) (by decide) (by decide)).1

/-! ## Claim C7 — artifact resolution -/

/-- C7 counterexample: (i) `server.bak.jar` carries a backup marker, yet the
GUI resolver selects it over the older `server.jar` — the exclusion of
backup/old-marked names claimed for artifact resolution does not happen
there; (ii) on a modification-time tie between `a.jar` and `b.jar` the
resolver returns `a.jar`, the earlier entry in listing order, not the
lexicographically greatest name `b.jar`. -/
theorem C7_resolver_counterexample :
    findExistingJar [⟨"server.bak.jar", 10, true⟩, ⟨"server.jar", 5, true⟩] =
      some "server.bak.jar" ∧
    findExistingJar [⟨"a.jar", 10, true⟩, ⟨"b.jar", 10, true⟩] =
      some "a.jar" := by
  constructor
  · decide
  · decide

/-- C7 amended: the GUI resolver considers the regular files whose
lower-cased name ends in `.jar` — with no exclusion of backup/old-marked
names — prefers those matching `server*.jar` case-insensitively (falling
back to the full candidate set when none match), and among the survivors
returns the first entry in directory-listing order having the most recent
modification time (the stable descending sort makes listing order, not the
name, the tie-break).  The shell auto-detect variant differs: it does drop
`.old.jar`/`.bak.jar` names but applies no `server*` preference. -/
theorem C7_resolver_amended :
    (∀ entries : List DirEntry,
      findExistingJar entries =
        (firstNewest (preferredOrAll (jarCandidates entries))).map
          (fun e => e.name))
    ∧ shellNewestJar [⟨"a.jar", 10, true⟩, ⟨"server.jar", 5, true⟩] =
        some "a.jar"
    ∧ shellNewestJar [⟨"x.old.jar", 10, true⟩, ⟨"b.jar", 5, true⟩] =
        some "b.jar" := by
  refine ⟨?_, by decide, by decide⟩
  intro entries
  unfold findExistingJar
  dsimp only
  by_cases h : (jarCandidates entries).isEmpty
  · have hnil : jarCandidates entries = [] := List.isEmpty_iff.mp h
    simp [h, hnil, preferredOrAll, firstNewest]
  · simp [h, sortByMtimeDesc_head]

/-! ## Claim C9 — same-second backups -/

theorem tarCreate_contains (l : List String) (n : String) :
    (tarCreate l n).contains n = true := by
  unfold tarCreate
  split
  · assumption
  · show List.elem n (l ++ [n]) = true
    exact List.elem_eq_true_of_mem (by simp)

theorem tarCreate_of_contains {l : List String} {n : String}
    (h : l.contains n = true) : tarCreate l n = l := by
  unfold tarCreate
  rw [if_pos h]

/-- C9 counterexample: two `do_backup` invocations for world `W` within the
same second (identical `date +%Y%m%d-%H%M%S` stamp) leave a single archive
file — the second `tar` silently overwrites the first instead of producing a
second, distinct archive. -/
theorem C9_do_backup_overwrite_counterexample :
    (do_backup true "W" "20240101-120000" 100
        (do_backup true "W" "20240101-120000" 90 ⟨[], none⟩)).archives =
      ["W-20240101-120000.tar.gz"] ∧
    ((do_backup true "W" "20240101-120000" 100
        (do_backup true "W" "20240101-120000" 90 ⟨[], none⟩)).archives).length
      = 1 := by
  constructor
  · decide
  · decide

/-- C9 amended: only the cron/shutdown `backup.sh` disambiguates — when the
day-named archive already exists it writes under an additional `_<time>`
suffix, so two same-second runs produce two distinct, non-overwriting files.
The run script's `do_backup` names archives at second resolution with no
existence check: a second invocation with the same timestamp writes the very
same path and the archive set is unchanged. -/
theorem C9_same_second_amended :
    (∀ (world ts : String) (n1 n2 : Nat) (st : BakState),
      (do_backup true world ts n2 (do_backup true world ts n1 st)).archives =
        (do_backup true world ts n1 st).archives)
    ∧ backup_sh true "W" "2024-01-01" "12-00-00" 90 [] =
        some [⟨"W_2024-01-01.tar.gz", 90⟩]
    ∧ backup_sh true "W" "2024-01-01" "12-00-00" 100
        [⟨"W_2024-01-01.tar.gz", 90⟩] =
        some [⟨"W_2024-01-01_12-00-00.tar.gz", 100⟩,
          ⟨"W_2024-01-01.tar.gz", 90⟩] := by
  refine ⟨?_, by decide, by decide⟩
  intro world ts n1 n2 st
  simp only [do_backup, Bool.not_true, Bool.false_eq_true, if_false]
  exact tarCreate_of_contains (tarCreate_contains _ _)

/-! ## Claim C10 — retention -/

theorem length_insertLsTCron (e : CronFile) (l : List CronFile) :
    (insertLsTCron e l).length = l.length + 1 := by
  induction l with
  | nil => rfl
  | cons b bs ih =>
    unfold insertLsTCron
    split
    · simp
    · simp [ih]

theorem length_sortLsTCron (l : List CronFile) :
    (sortLsTCron l).length = l.length := by
  induction l with
  | nil => rfl
  | cons e es ih => simp [sortLsTCron, length_insertLsTCron, ih]

theorem mem_insertLsTCron {a e : CronFile} {l : List CronFile}
    (h : a ∈ insertLsTCron e l) : a = e ∨ a ∈ l := by
  induction l with
  | nil => simpa [insertLsTCron] using h
  | cons b bs ih =>
    unfold insertLsTCron at h
    split at h
    · simpa using h
    · rcases List.mem_cons.mp h with h1 | h1
      · right
        simp [h1]
      · rcases ih h1 with h2 | h2
        · left
          exact h2
        · right
          simp [h2]

theorem mem_sortLsTCron {a : CronFile} {l : List CronFile}
    (h : a ∈ sortLsTCron l) : a ∈ l := by
  induction l with
  | nil => simpa [sortLsTCron] using h
  | cons e es ih =>
    rcases mem_insertLsTCron h with h1 | h1
    · simp [h1]
    · simp [ih h1]

/-- Mapping a predicate-preserving function over a list does not change the
number of elements the predicate selects. -/
theorem length_filter_map_eq (m : CronFile → Bool) (g : CronFile → CronFile)
    (hg : ∀ f, m (g f) = m f) (files : List CronFile) :
    ((files.map g).filter m).length = (files.filter m).length := by
  induction files with
  | nil => rfl
  | cons f fs ih =>
    simp only [List.map_cons, List.filter_cons, hg f]
    split <;> simp [ih]

/-- `tar` never lowers the number of matching archives: overwriting keeps the
count, creating adds at most one. -/
theorem count_le_tarCreateCron (world name : String) (now : Nat)
    (files : List CronFile) :
    (files.filter (fun f => matchesWorldArchive world f.name)).length ≤
      ((tarCreateCron files name now).filter
        (fun f => matchesWorldArchive world f.name)).length := by
  unfold tarCreateCron
  split
  · have hg : ∀ f : CronFile,
        matchesWorldArchive world
          ((if f.name == name then (⟨name, now⟩ : CronFile) else f)).name =
        matchesWorldArchive world f.name := by
      intro f
      by_cases h : f.name == name
      · have hn : f.name = name := by simpa using h
        simp [h, hn]
      · simp [h]
    rw [length_filter_map_eq (fun f => matchesWorldArchive world f.name)
      (fun f => if f.name == name then ⟨name, now⟩ else f) hg]
  · rw [List.filter_append]
    simp only [List.length_append]
    omega

/-- C10 counterexample: eleven archives of world `W` exist; a further
successful `do_backup` leaves twelve — more than the retention count — and
deletes nothing, so it is not the case that exactly 10 remain. -/
theorem C10_no_retention_counterexample :
    ((do_backup true "W" "t12" 500
      ⟨["W-t01.tar.gz", "W-t02.tar.gz", "W-t03.tar.gz", "W-t04.tar.gz",
        "W-t05.tar.gz", "W-t06.tar.gz", "W-t07.tar.gz", "W-t08.tar.gz",
        "W-t09.tar.gz", "W-t10.tar.gz", "W-t11.tar.gz"],
        some 0⟩).archives).length = 12 ∧
    ¬ (((do_backup true "W" "t12" 500
      ⟨["W-t01.tar.gz", "W-t02.tar.gz", "W-t03.tar.gz", "W-t04.tar.gz",
        "W-t05.tar.gz", "W-t06.tar.gz", "W-t07.tar.gz", "W-t08.tar.gz",
        "W-t09.tar.gz", "W-t10.tar.gz", "W-t11.tar.gz"],
        some 0⟩).archives).length = 10) := by
  constructor
  · decide
  · decide

/-- C10 amended: retention lives only in the cron/shutdown `backup.sh`
path — after its successful backup, when at least ten archives of the world
already existed, exactly ten (the newest by modification time, ties broken
by name) remain.  The run script's `do_backup` applies no retention: it
never deletes an archive. -/
theorem C10_retention_amended :
    (∀ (world date time : String) (now : Nat) (files out : List CronFile),
      10 ≤ worldArchiveCount world files →
      backup_sh true world date time now files = some out →
      worldArchiveCount world out = 10)
    ∧ (∀ (d : Bool) (world ts : String) (now : Nat) (st : BakState),
      st.archives.length ≤ ((do_backup d world ts now st).archives).length) := by
  constructor
  · intro world date time now files out hcount hout
    unfold backup_sh at hout
    simp only [Bool.not_true, Bool.false_eq_true, if_false,
      Option.some.injEq] at hout
    subst hout
    unfold worldArchiveCount at hcount ⊢
    rw [List.filter_append]
    have hA : ((tarCreateCron files
        (if files.any (fun f => f.name == cronArchiveBase world date) = true
          then cronArchiveTimed world date time
          else cronArchiveBase world date) now).filter
        (fun f => !matchesWorldArchive world f.name)).filter
        (fun f => matchesWorldArchive world f.name) = [] := by
      rw [List.filter_filter]
      simp
    have hkeepall : ∀ a ∈ ((sortLsTCron ((tarCreateCron files
        (if files.any (fun f => f.name == cronArchiveBase world date) = true
          then cronArchiveTimed world date time
          else cronArchiveBase world date) now).filter
        (fun f => matchesWorldArchive world f.name))).take 10),
        matchesWorldArchive world a.name = true := by
      intro a ha
      exact (List.mem_filter.mp (mem_sortLsTCron (List.take_subset _ _ ha))).2
    have hkeep := List.filter_eq_self.mpr hkeepall
    rw [hkeep]
    have hge := count_le_tarCreateCron world
      (if files.any (fun f => f.name == cronArchiveBase world date) = true
        then cronArchiveTimed world date time
        else cronArchiveBase world date) now files
    rw [List.length_append, hA, List.length_take, length_sortLsTCron]
    simp only [List.length_nil]
    omega
  · intro d world ts now st
    unfold do_backup
    split
    · exact Nat.le_refl _
    · simp only [tarCreate]
      split
      · exact Nat.le_refl _
      · simp

/-- Witness for the amended C10: ten archives of `W` exist; the cron backup
adds an eleventh and the retention pass leaves exactly ten; and `do_backup`
does not shrink a concrete archive set. -/
theorem C10_retention_amended_witness :
    10 ≤ worldArchiveCount "W"
      [⟨"W_d01.tar.gz", 1⟩, ⟨"W_d02.tar.gz", 2⟩, ⟨"W_d03.tar.gz", 3⟩,
       ⟨"W_d04.tar.gz", 4⟩, ⟨"W_d05.tar.gz", 5⟩, ⟨"W_d06.tar.gz", 6⟩,
       ⟨"W_d07.tar.gz", 7⟩, ⟨"W_d08.tar.gz", 8⟩, ⟨"W_d09.tar.gz", 9⟩,
       ⟨"W_d10.tar.gz", 10⟩] ∧
    worldArchiveCount "W"
      ((backup_sh true "W" "2024-02-02" "10-00-00" 100
        [⟨"W_d01.tar.gz", 1⟩, ⟨"W_d02.tar.gz", 2⟩, ⟨"W_d03.tar.gz", 3⟩,
         ⟨"W_d04.tar.gz", 4⟩, ⟨"W_d05.tar.gz", 5⟩, ⟨"W_d06.tar.gz", 6⟩,
         ⟨"W_d07.tar.gz", 7⟩, ⟨"W_d08.tar.gz", 8⟩, ⟨"W_d09.tar.gz", 9⟩,
         ⟨"W_d10.tar.gz", 10⟩]).getD []) = 10 ∧
    ((⟨["a.tar.gz"], none⟩ : BakState).archives).length ≤
      ((do_backup true "W" "t" 5 ⟨["a.tar.gz"], none⟩).archives).length := by
  refine ⟨by decide, ?_, ?_⟩
  · exact C10_retention_amended.1 "W" "2024-02-02" "10-00-00" 100
      [⟨"W_d01.tar.gz", 1⟩, ⟨"W_d02.tar.gz", 2⟩, ⟨"W_d03.tar.gz", 3⟩,
       ⟨"W_d04.tar.gz", 4⟩, ⟨"W_d05.tar.gz", 5⟩, ⟨"W_d06.tar.gz", 6⟩,
       ⟨"W_d07.tar.gz", 7⟩, ⟨"W_d08.tar.gz", 8⟩, ⟨"W_d09.tar.gz", 9⟩,
       ⟨"W_d10.tar.gz", 10⟩] _ (by decide) (by decide)
  · exact C10_retention_amended.2 true "W" "t" 5 ⟨["a.tar.gz"], none⟩

end MCServer
